import Mathlib

/-!
Verification of the pyPowerUp core routines against their specification.

The Python floats of `pyPowerUp/utils.py` and `pyPowerUp/sample_size.py` are
modelled as exact rationals.  The scipy distribution objects (`t_dist.ppf`,
`t_dist.isf`, `nct.cdf`) are transcendental functions supplied by an external
library; following the specification they are treated as given, so every
definition is parametrised by a `TProvider` bundle of those three functions.
Fallible Python code is modelled with `Except`: the two `ValueError` guards of
`_mde` and `_power` become error values, as does the `ZeroDivisionError` that
plain Python float division raises at `effect_size / sse` in `_power` when
`sse = 0` (both operands there are plain Python floats).  The division
`t1 / m` in `_mde` behaves differently: its operands are numpy `float64`
scalars produced by `scipy.stats.t.ppf`, and numpy division by zero does not
raise — it emits a RuntimeWarning and yields `inf` (or `nan`), after which
`_mde` still returns its dictionary, with `minimum_detectable_effect = 0.0`
and `nan` interval bounds.  Non-finite bounds are not representable as
rationals and are modelled by `none` in the `Option ℚ` interval fields of
`MdeResult`.
-/

namespace PyPowerUp

/-- Python exceptions that the embedded code can raise.  The two `ValueError`
constructors carry the messages `"Sum of Squared Error cannot be less than 0"`
and `"degrees of freedom must be at least 1"` in the Python source. -/
inductive PyErr where
  | valueErrorSseNegative
  | valueErrorDfLessThanOne
  | zeroDivisionError
deriving DecidableEq

/-- Distribution provider: `ppf p df` is `scipy.stats.t.ppf` (central t
quantile), `isf a df` is `scipy.stats.t.isf` (upper-tail quantile), and
`nctCdf x df lam` is `scipy.stats.nct.cdf` (noncentral-t CDF with
noncentrality `lam`).  These are external transcendental functions and are
kept abstract. -/
structure TProvider where
  ppf : ℚ → ℚ → ℚ
  isf : ℚ → ℚ → ℚ
  nctCdf : ℚ → ℚ → ℚ → ℚ

/-- Result dictionary of `_mde`.  The Python dictionary has the two keys
`minimum_detectable_effect` and the string `f"{pct}% Confidence Interval"`;
the integer `pct` of that key is stored in `ciPct` and the two-element list
under it in `ciLower`, `ciUpper`.  A bound of `none` models an IEEE
non-finite (`nan`) float, which arises on the `m == 0` path where numpy
division by zero propagates `inf`/`nan` instead of raising. -/
structure MdeResult where
  minimum_detectable_effect : ℚ
  ciPct : ℤ
  ciLower : Option ℚ
  ciUpper : Option ℚ
deriving DecidableEq

/-- Successful value of a fallible computation, `none` on a raised error. -/
def toOpt {α : Type} : Except PyErr α → Option α
  | Except.ok a => some a
  | Except.error _ => none

/-- True exactly when the computation raised a `ValueError`. -/
def isValueError {α : Type} : Except PyErr α → Bool
  | Except.error PyErr.valueErrorSseNegative => true
  | Except.error PyErr.valueErrorDfLessThanOne => true
  | _ => false

/-- True exactly when the computation raised a `ZeroDivisionError`. -/
def isZeroDiv {α : Type} : Except PyErr α → Bool
  | Except.error PyErr.zeroDivisionError => true
  | _ => false

/-- Python `round(q)`: round to the nearest integer, ties to the even
integer. -/
def pyRoundHE (q : ℚ) : ℤ :=
  if q - ⌊q⌋ < 1/2 then ⌊q⌋
  else if 1/2 < q - ⌊q⌋ then ⌊q⌋ + 1
  else if ⌊q⌋ % 2 = 0 then ⌊q⌋ else ⌊q⌋ + 1

/-- Python `round(q, 2)`: round to two decimal places, ties to even. -/
def pyRound2 (q : ℚ) : ℚ := (pyRoundHE (q * 100) : ℚ) / 100

/-- Python `int(q)`: truncation toward zero. -/
def pyInt (q : ℚ) : ℤ := if 0 ≤ q then ⌊q⌋ else ⌈q⌉

/-- Integer `pct` of the confidence-interval key of the `_mde` dictionary:
the Python source builds the key as
`f"{int((1 - round(alpha, 2)) * 100)}% Confidence Interval"`. -/
def mdePct (alpha : ℚ) : ℤ := pyInt ((1 - pyRound2 alpha) * 100)

/-- Critical value `T1` as computed inline by `_mde` (line 30 of `utils.py`)
and by every sample-size solver: the absolute central-t quantile at
`alpha / 2` (two-tailed) or at `alpha` (one-tailed). -/
def tCrit (P : TProvider) (alpha df : ℚ) (two_tailed : Bool) : ℚ :=
  if two_tailed then |P.ppf (alpha / 2) df| else |P.ppf alpha df|

/-- Critical value `T2` as computed inline by `_mde` (line 31 of `utils.py`):
the absolute central-t quantile at the target power. -/
def tCrit2 (P : TProvider) (power df : ℚ) : ℚ := |P.ppf power df|

/-- Combination rule for the multiplier `M` (line 32 of `utils.py` and every
sample-size solver): `T1 + T2` when `power >= 0.5`, else `T1 - T2`. -/
def combinedM (P : TProvider) (power alpha df : ℚ) (two_tailed : Bool) : ℚ :=
  if power ≥ 1/2 then tCrit P alpha df two_tailed + tCrit2 P power df
  else tCrit P alpha df two_tailed - tCrit2 P power df

/-- Embedding of `_mde` from `pyPowerUp/utils.py` (lines 26-37).  When
`m == 0`, the quantities `t1` and `m` are numpy `float64` scalars (they come
from `scipy.stats.t.ppf`), so `t1 / m` does not raise: numpy emits a
RuntimeWarning and yields `inf` (`nan` when `t1` is also `0`), and the
function returns the dictionary with `mde = 0.0 * sse = 0.0` and both
interval bounds equal to `nan` (`0.0` times an infinite `1 - t1 / m` or
`1 + t1 / m`).  The `nan` bounds are modelled by
`none`; on the `m ≠ 0` branch every value is a finite rational evaluated
exactly as written in the source. -/
def _mde (P : TProvider) (power alpha sse df : ℚ) (two_tailed : Bool) :
    Except PyErr MdeResult :=
  if sse < 0 then Except.error PyErr.valueErrorSseNegative
  else if df < 1 then Except.error PyErr.valueErrorDfLessThanOne
  else
    let t1 := if two_tailed then |P.ppf (alpha / 2) df| else |P.ppf alpha df|
    let t2 := |P.ppf power df|
    let m := if power ≥ 1/2 then t1 + t2 else t1 - t2
    let mde := m * sse
    if m = 0 then Except.ok ⟨mde, mdePct alpha, none, none⟩
    else Except.ok ⟨mde, mdePct alpha, some (mde * (1 - t1 / m)),
      some (mde * (1 + t1 / m))⟩

/-- Value returned by `_power` on the non-error path, exactly as written on
lines 64-68 of `utils.py`. -/
def powerFormula (P : TProvider) (effect_size alpha sse df : ℚ)
    (two_tailed : Bool) : ℚ :=
  if two_tailed then
    1 - P.nctCdf (P.isf (alpha / 2) df) df (effect_size / sse)
      + P.nctCdf (-(P.isf (alpha / 2) df)) df (effect_size / sse)
  else 1 - P.nctCdf (P.isf alpha df) df (effect_size / sse)

/-- Embedding of `_power` from `pyPowerUp/utils.py` (lines 60-69).  Python
raises `ZeroDivisionError` at `lamda = effect_size / sse` when `sse == 0.0`;
that case is modelled by the `sse = 0` branch. -/
def _power (P : TProvider) (effect_size alpha sse df : ℚ)
    (two_tailed : Bool) : Except PyErr ℚ :=
  if sse < 0 then Except.error PyErr.valueErrorSseNegative
  else if df < 1 then Except.error PyErr.valueErrorDfLessThanOne
  else if sse = 0 then Except.error PyErr.zeroDivisionError
  else
    let lamda := effect_size / sse
    if two_tailed then
      Except.ok (1 - P.nctCdf (P.isf (alpha / 2) df) df lamda
        + P.nctCdf (-(P.isf (alpha / 2) df)) df lamda)
    else Except.ok (1 - P.nctCdf (P.isf alpha df) df lamda)

/-- Concrete distribution provider used to instantiate witnesses and
counterexamples whose truth does not depend on the shape of the provider. -/
def P0 : TProvider := ⟨fun q d => q + d, fun a d => a + d, fun x d l => x + d + l⟩

lemma mde_ok (P : TProvider) (power alpha sse df : ℚ) (tt : Bool)
    (hs : ¬ sse < 0) (hd : ¬ df < 1) (hm : combinedM P power alpha df tt ≠ 0) :
    _mde P power alpha sse df tt =
      Except.ok ⟨combinedM P power alpha df tt * sse, mdePct alpha,
        some (combinedM P power alpha df tt * sse *
          (1 - tCrit P alpha df tt / combinedM P power alpha df tt)),
        some (combinedM P power alpha df tt * sse *
          (1 + tCrit P alpha df tt / combinedM P power alpha df tt))⟩ := by
  have hm' := hm
  simp only [combinedM, tCrit, tCrit2] at hm'
  simp only [_mde, combinedM, tCrit, tCrit2]
  rw [if_neg hs, if_neg hd, if_neg hm']

lemma power_ok (P : TProvider) (effect_size alpha sse df : ℚ) (tt : Bool)
    (hs : 0 < sse) (hd : ¬ df < 1) :
    _power P effect_size alpha sse df tt =
      Except.ok (powerFormula P effect_size alpha sse df tt) := by
  simp only [_power, powerFormula]
  rw [if_neg (not_lt.mpr hs.le), if_neg hd, if_neg (ne_of_gt hs)]
  cases tt <;> simp

lemma mde_m0 (P : TProvider) (power alpha sse df : ℚ) (tt : Bool)
    (hs : ¬ sse < 0) (hd : ¬ df < 1) (hm : combinedM P power alpha df tt = 0) :
    _mde P power alpha sse df tt = Except.ok ⟨0, mdePct alpha, none, none⟩ := by
  have hm' := hm
  simp only [combinedM, tCrit, tCrit2] at hm'
  simp only [_mde]
  rw [if_neg hs, if_neg hd, if_pos hm', hm', zero_mul]

lemma mde_err_sse (P : TProvider) (power alpha sse df : ℚ) (tt : Bool)
    (h1 : sse < 0) :
    _mde P power alpha sse df tt = Except.error PyErr.valueErrorSseNegative := by
  simp only [_mde]
  rw [if_pos h1]

lemma mde_err_df (P : TProvider) (power alpha sse df : ℚ) (tt : Bool)
    (h1 : ¬ sse < 0) (h2 : df < 1) :
    _mde P power alpha sse df tt = Except.error PyErr.valueErrorDfLessThanOne := by
  simp only [_mde]
  rw [if_neg h1, if_pos h2]

lemma mde_ok_inv (P : TProvider) (power alpha sse df : ℚ) (tt : Bool)
    (r : MdeResult) (hr : toOpt (_mde P power alpha sse df tt) = some r) :
    ¬ sse < 0 ∧ ¬ df < 1 ∧
      ((combinedM P power alpha df tt = 0 ∧ r = ⟨0, mdePct alpha, none, none⟩) ∨
       (combinedM P power alpha df tt ≠ 0 ∧
        r = ⟨combinedM P power alpha df tt * sse, mdePct alpha,
          some (combinedM P power alpha df tt * sse *
            (1 - tCrit P alpha df tt / combinedM P power alpha df tt)),
          some (combinedM P power alpha df tt * sse *
            (1 + tCrit P alpha df tt / combinedM P power alpha df tt))⟩)) := by
  by_cases h1 : sse < 0
  · rw [mde_err_sse P power alpha sse df tt h1] at hr
    exact absurd hr (by simp [toOpt])
  by_cases h2 : df < 1
  · rw [mde_err_df P power alpha sse df tt h1 h2] at hr
    exact absurd hr (by simp [toOpt])
  by_cases h3 : combinedM P power alpha df tt = 0
  · rw [mde_m0 P power alpha sse df tt h1 h2 h3] at hr
    simp only [toOpt, Option.some.injEq] at hr
    exact ⟨h1, h2, Or.inl ⟨h3, hr.symm⟩⟩
  · rw [mde_ok P power alpha sse df tt h1 h2 h3] at hr
    simp only [toOpt, Option.some.injEq] at hr
    exact ⟨h1, h2, Or.inr ⟨h3, hr.symm⟩⟩

lemma pyInt_intCast (n : ℤ) : pyInt (n : ℚ) = n := by
  unfold pyInt
  split <;> simp

lemma pyRoundHE_intCast (n : ℤ) : pyRoundHE (n : ℚ) = n := by
  unfold pyRoundHE
  rw [Int.floor_intCast]
  norm_num

lemma roundHE_sub (x : ℚ) : pyRoundHE (100 - x) = 100 - pyRoundHE x := by
  rcases eq_or_lt_of_le (Int.floor_le x) with hfx | hfx
  · obtain ⟨n, hn⟩ : ∃ n : ℤ, x = (n : ℚ) := ⟨⌊x⌋, hfx.symm⟩
    subst hn
    have h : (100 : ℚ) - (n : ℚ) = ((100 - n : ℤ) : ℚ) := by push_cast; ring
    rw [h, pyRoundHE_intCast, pyRoundHE_intCast]
  · have hup := Int.lt_floor_add_one x
    have hfl : ⌊(100 : ℚ) - x⌋ = 99 - ⌊x⌋ := by
      rw [Int.floor_eq_iff]
      constructor
      · push_cast
        linarith
      · push_cast
        linarith
    unfold pyRoundHE
    rw [hfl]
    have hc : ((99 - ⌊x⌋ : ℤ) : ℚ) = 99 - (⌊x⌋ : ℚ) := by push_cast; ring
    rw [hc]
    have e1 : (100 : ℚ) - x - (99 - (⌊x⌋ : ℚ)) = 1 - (x - (⌊x⌋ : ℚ)) := by ring
    rw [e1]
    have hr0 : 0 < x - (⌊x⌋ : ℚ) := sub_pos.mpr hfx
    have hr1 : x - (⌊x⌋ : ℚ) < 1 := by linarith
    rcases lt_trichotomy (x - (⌊x⌋ : ℚ)) (1/2) with h | h | h
    · rw [if_neg (by linarith), if_pos (by linarith), if_pos h]
      omega
    · have ha : ¬ (1 - (x - (⌊x⌋ : ℚ)) < 1/2) := by rw [h]; norm_num
      have hb : ¬ ((1:ℚ)/2 < 1 - (x - (⌊x⌋ : ℚ))) := by rw [h]; norm_num
      have hc1 : ¬ (x - (⌊x⌋ : ℚ) < 1/2) := by rw [h]; norm_num
      have hd1 : ¬ ((1:ℚ)/2 < x - (⌊x⌋ : ℚ)) := by rw [h]; norm_num
      rw [if_neg ha, if_neg hb, if_neg hc1, if_neg hd1]
      split_ifs with hp1 hp2 <;> omega
    · rw [if_pos (by linarith), if_neg (by linarith), if_pos h]
      omega

lemma mdePct_eq (alpha : ℚ) : mdePct alpha = 100 - pyRoundHE (alpha * 100) := by
  unfold mdePct pyRound2
  have h : (1 - (pyRoundHE (alpha * 100) : ℚ) / 100) * 100
      = ((100 - pyRoundHE (alpha * 100) : ℤ) : ℚ) := by push_cast; ring
  rw [h, pyInt_intCast]

/-- C1 (amended): for every provider and every input with `sse >= 0`,
`df >= 1` and combined critical value `M ≠ 0`, `_mde` returns
`minimum_detectable_effect = M * sse` together with the confidence interval
`[mde * (1 - T1/M), mde * (1 + T1/M)]`, where `T1 = |quantile(alpha/2, df)|`
when two-tailed and `T1 = |quantile(alpha, df)|` otherwise,
`T2 = |quantile(power, df)|`, and `M = T1 + T2` when `power >= 0.5`,
`M = T1 - T2` when `power < 0.5`.  The amendment adds the hypothesis
`M ≠ 0`: at `M = 0` the function still returns (numpy division by zero only
warns), but with `minimum_detectable_effect = 0.0` and `nan` interval
bounds instead of the rational interval values the claim asserts (see the
counterexample). -/
theorem mde_formula (P : TProvider) (power alpha sse df : ℚ) (tt : Bool)
    (hs : 0 ≤ sse) (hd : 1 ≤ df) (hm : combinedM P power alpha df tt ≠ 0) :
    _mde P power alpha sse df tt =
      Except.ok ⟨combinedM P power alpha df tt * sse, mdePct alpha,
        some (combinedM P power alpha df tt * sse *
          (1 - tCrit P alpha df tt / combinedM P power alpha df tt)),
        some (combinedM P power alpha df tt * sse *
          (1 + tCrit P alpha df tt / combinedM P power alpha df tt))⟩ :=
  mde_ok P power alpha sse df tt (not_lt.mpr hs) (not_lt.mpr hd) hm

/-- Witness for C1 at a concrete provider and input. -/
theorem mde_formula_witness :
    (0:ℚ) ≤ 2 ∧ (1:ℚ) ≤ 5 ∧ combinedM P0 (4/5) (1/20) 5 true ≠ 0 ∧
    _mde P0 (4/5) (1/20) 2 5 true =
      Except.ok ⟨combinedM P0 (4/5) (1/20) 5 true * 2, mdePct (1/20),
        some (combinedM P0 (4/5) (1/20) 5 true * 2 *
          (1 - tCrit P0 (1/20) 5 true / combinedM P0 (4/5) (1/20) 5 true)),
        some (combinedM P0 (4/5) (1/20) 5 true * 2 *
          (1 + tCrit P0 (1/20) 5 true / combinedM P0 (4/5) (1/20) 5 true))⟩ := by
  have hm : combinedM P0 (4/5) (1/20) 5 true ≠ 0 := by
    norm_num [combinedM, tCrit, tCrit2, P0, abs_of_pos]
  exact ⟨by norm_num, by norm_num, hm,
    mde_formula P0 (4/5) (1/20) 2 5 true (by norm_num) (by norm_num) hm⟩

/-- Counterexample for C1 as stated: at `power = 1/4`, `alpha = 1/2`
(two-tailed), `sse = 1 ≥ 0`, `df = 3 ≥ 1` the two quantile calls coincide,
so `M = T1 - T2 = 0` and the numpy division `t1 / m` yields `inf` with a
RuntimeWarning; the function returns `minimum_detectable_effect = 0.0`
together with `nan` interval bounds (the `none` fields), not the confidence
interval `[mde * (1 - T1/M), mde * (1 + T1/M)]` of the claim; no exception
is raised. -/
theorem mde_formula_cex :
    (0:ℚ) ≤ 1 ∧ (1:ℚ) ≤ 3 ∧ combinedM P0 (1/4) (1/2) 3 true = 0 ∧
    _mde P0 (1/4) (1/2) 1 3 true = Except.ok ⟨0, 50, none, none⟩ ∧
    isValueError (_mde P0 (1/4) (1/2) 1 3 true) = false ∧
    isZeroDiv (_mde P0 (1/4) (1/2) 1 3 true) = false := by
  have hm : combinedM P0 (1/4) (1/2) 3 true = 0 := by
    norm_num [combinedM, tCrit, tCrit2, P0]
  have h : _mde P0 (1/4) (1/2) 1 3 true = Except.ok ⟨0, mdePct (1/2), none, none⟩ :=
    mde_m0 P0 (1/4) (1/2) 1 3 true (by norm_num) (by norm_num) hm
  have hpct : mdePct (1/2) = 50 := by
    norm_num [mdePct, pyRound2, pyRoundHE, pyInt]
  refine ⟨by norm_num, by norm_num, hm, ?_, by rw [h]; rfl, by rw [h]; rfl⟩
  rw [h, hpct]

/-- C2 (amended): for every provider and every input with `sse > 0` and
`df >= 1`, `_power` computes the noncentrality `lambda = effect_size / sse`
and returns
`1 - nctCdf (isf (alpha/2) df) df lambda + nctCdf (-(isf (alpha/2) df)) df lambda`
when two-tailed and `1 - nctCdf (isf alpha df) df lambda` otherwise.  The
amendment strengthens `sse >= 0` to `sse > 0`: at `sse = 0` the division
`effect_size / sse` raises `ZeroDivisionError` in Python (counterexample
below). -/
theorem power_formula (P : TProvider) (effect_size alpha sse df : ℚ)
    (tt : Bool) (hs : 0 < sse) (hd : 1 ≤ df) :
    _power P effect_size alpha sse df tt =
      Except.ok (powerFormula P effect_size alpha sse df tt) :=
  power_ok P effect_size alpha sse df tt hs (not_lt.mpr hd)

/-- Witness for C2 at a concrete provider and input. -/
theorem power_formula_witness :
    (0:ℚ) < 2 ∧ (1:ℚ) ≤ 5 ∧
    _power P0 1 (1/20) 2 5 true = Except.ok (powerFormula P0 1 (1/20) 2 5 true) :=
  ⟨by norm_num, by norm_num, power_formula P0 1 (1/20) 2 5 true (by norm_num) (by norm_num)⟩

/-- Counterexample for C2 as stated: at `sse = 0` (which the claim admits,
requiring only `sse >= 0`) the code raises `ZeroDivisionError` and returns
no value. -/
theorem power_formula_cex :
    (0:ℚ) ≤ 0 ∧ (1:ℚ) ≤ 5 ∧
    isZeroDiv (_power P0 1 (1/20) 0 5 true) = true ∧
    toOpt (_power P0 1 (1/20) 0 5 true) = none := by
  have h : _power P0 1 (1/20) 0 5 true = Except.error PyErr.zeroDivisionError := by
    simp only [_power]
    norm_num
  exact ⟨by norm_num, by norm_num, by rw [h]; rfl, by rw [h]; rfl⟩

/-- C5 (amended): `_mde` and `_power` raise a `ValueError` if and only if
`sse < 0` or `df < 1` (in particular for `df = 0` and for `sse = -0.01`),
and inputs are never clamped.  For every input with `sse >= 0` and
`df >= 1`, `_mde` raises nothing and returns its dictionary (even at
`M = 0`, where the numpy division only warns and the returned interval
bounds are `nan`); `_power` raises nothing provided additionally `sse > 0`,
since at `sse = 0` the plain Python float division
`effect_size / sse` raises `ZeroDivisionError` (see the counterexample). -/
theorem domain_error_iff (P : TProvider) (power effect_size alpha sse df : ℚ)
    (tt : Bool) :
    (isValueError (_mde P power alpha sse df tt) = true ↔ sse < 0 ∨ df < 1) ∧
    (isValueError (_power P effect_size alpha sse df tt) = true ↔ sse < 0 ∨ df < 1) ∧
    (0 ≤ sse → 1 ≤ df →
      isValueError (_mde P power alpha sse df tt) = false ∧
      isZeroDiv (_mde P power alpha sse df tt) = false ∧
      (∃ r, _mde P power alpha sse df tt = Except.ok r)) ∧
    (0 < sse → 1 ≤ df →
      isValueError (_power P effect_size alpha sse df tt) = false ∧
      isZeroDiv (_power P effect_size alpha sse df tt) = false) := by
  refine ⟨?_, ?_, ?_, ?_⟩
  · by_cases h1 : sse < 0
    · rw [mde_err_sse P power alpha sse df tt h1]
      exact iff_of_true rfl (Or.inl h1)
    by_cases h2 : df < 1
    · rw [mde_err_df P power alpha sse df tt h1 h2]
      exact iff_of_true rfl (Or.inr h2)
    by_cases h3 : combinedM P power alpha df tt = 0
    · rw [mde_m0 P power alpha sse df tt h1 h2 h3]
      exact iff_of_false (by simp [isValueError]) (by rw [not_or]; exact ⟨h1, h2⟩)
    · rw [mde_ok P power alpha sse df tt h1 h2 h3]
      exact iff_of_false (by simp [isValueError]) (by rw [not_or]; exact ⟨h1, h2⟩)
  · simp only [_power]
    split_ifs with h1 h2 h3 h4
    · exact iff_of_true rfl (Or.inl h1)
    · exact iff_of_true rfl (Or.inr h2)
    · exact iff_of_false (by simp [isValueError]) (by rw [not_or]; exact ⟨h1, h2⟩)
    · exact iff_of_false (by simp [isValueError]) (by rw [not_or]; exact ⟨h1, h2⟩)
    · exact iff_of_false (by simp [isValueError]) (by rw [not_or]; exact ⟨h1, h2⟩)
  · intro hs hd
    by_cases h3 : combinedM P power alpha df tt = 0
    · rw [mde_m0 P power alpha sse df tt (not_lt.mpr hs) (not_lt.mpr hd) h3]
      exact ⟨rfl, rfl, ⟨0, mdePct alpha, none, none⟩, rfl⟩
    · rw [mde_ok P power alpha sse df tt (not_lt.mpr hs) (not_lt.mpr hd) h3]
      exact ⟨rfl, rfl, _, rfl⟩
  · intro hs hd
    rw [power_ok P effect_size alpha sse df tt hs (not_lt.mpr hd)]
    exact ⟨rfl, rfl⟩

/-- Witness for C5: the boundary inputs `sse = -1/100` and `df = 0` of the
claim do raise a `ValueError`, and well-posed inputs raise nothing. -/
theorem domain_error_iff_witness :
    isValueError (_mde P0 (4/5) (1/20) (-1/100) 5 true) = true ∧
    isValueError (_power P0 1 (1/20) 1 0 true) = true ∧
    isValueError (_mde P0 (4/5) (1/20) 2 5 true) = false ∧
    isZeroDiv (_power P0 1 (1/20) 2 5 true) = false :=
  ⟨(domain_error_iff P0 (4/5) 1 (1/20) (-1/100) 5 true).1.mpr (Or.inl (by norm_num)),
   (domain_error_iff P0 1 1 (1/20) 1 0 true).2.1.mpr (Or.inr (by norm_num)),
   ((domain_error_iff P0 (4/5) 1 (1/20) 2 5 true).2.2.1 (by norm_num) (by norm_num)).1,
   ((domain_error_iff P0 1 1 (1/20) 2 5 true).2.2.2 (by norm_num) (by norm_num)).2⟩

/-- Counterexample for C5 as stated: at `effect_size = 2`, `alpha = 1/10`
(one-tailed), `sse = 0 ≥ 0`, `df = 7 ≥ 1` the `_power` routine raises
`ZeroDivisionError` (not a `ValueError`) at `lamda = effect_size / sse`,
contradicting the part of the claim that says neither function raises on
any input with `sse >= 0` and `df >= 1`. -/
theorem domain_error_iff_cex :
    (0:ℚ) ≤ 0 ∧ (1:ℚ) ≤ 7 ∧
    isZeroDiv (_power P0 2 (1/10) 0 7 false) = true ∧
    isValueError (_power P0 2 (1/10) 0 7 false) = false := by
  have h : _power P0 2 (1/10) 0 7 false = Except.error PyErr.zeroDivisionError := by
    simp only [_power]
    norm_num
  exact ⟨by norm_num, by norm_num, by rw [h]; rfl, by rw [h]; rfl⟩

/-- C7: for every `alpha` in `(0,1)`, the integer `pct` of the dictionary
key `"<pct>% Confidence Interval"` returned by `_mde` equals
`round((1 - alpha) * 100)` (Python rounding, ties to even); in particular
`alpha = 0.05` yields `pct = 95`. -/
theorem mde_ci_key (P : TProvider) (power alpha sse df : ℚ) (tt : Bool)
    (h0 : 0 < alpha) (h1 : alpha < 1) :
    ∀ r, toOpt (_mde P power alpha sse df tt) = some r →
      r.ciPct = pyRoundHE ((1 - alpha) * 100) := by
  intro r hr
  obtain ⟨-, -, hca⟩ := mde_ok_inv P power alpha sse df tt r hr
  have hp : r.ciPct = mdePct alpha := by
    rcases hca with ⟨-, hre⟩ | ⟨-, hre⟩ <;> rw [hre]
  rw [hp, mdePct_eq, show (1 - alpha) * 100 = 100 - alpha * 100 from by ring,
    roundHE_sub]

/-- Witness for C7 at `alpha = 1/20`: the key integer is `95`. -/
theorem mde_ci_key_witness :
    (0:ℚ) < 1/20 ∧ (1:ℚ)/20 < 1 ∧
    toOpt (_mde P0 (4/5) (1/20) 1 3 true)
      = some ⟨273/40, 95, some (19/5), some (197/20)⟩ ∧
    MdeResult.ciPct ⟨273/40, 95, some (19/5), some (197/20)⟩
      = pyRoundHE ((1 - 1/20) * 100) ∧
    pyRoundHE ((1 - 1/20) * 100) = 95 := by
  have heval : toOpt (_mde P0 (4/5) (1/20) 1 3 true)
      = some ⟨273/40, 95, some (19/5), some (197/20)⟩ := by
    rw [mde_ok P0 (4/5) (1/20) 1 3 true (by norm_num) (by norm_num)
      (by norm_num [combinedM, tCrit, tCrit2, P0, abs_of_pos])]
    norm_num [toOpt, combinedM, tCrit, tCrit2, P0, abs_of_pos, mdePct,
      pyRound2, pyRoundHE, pyInt]
  refine ⟨by norm_num, by norm_num, heval,
    mde_ci_key P0 (4/5) (1/20) 1 3 true (by norm_num) (by norm_num)
      ⟨273/40, 95, some (19/5), some (197/20)⟩ heval, ?_⟩
  norm_num [pyRoundHE]

/-- C10: for every input to `_mde` with `sse >= 0`, `df >= 1` and combined
critical value `M ≠ 0` — equivalently, whenever the returned dictionary
carries finite interval bounds — the confidence interval has width exactly
`upper - lower = 2 * T1 * sse`, a quantity free of `power` and of the sign
of `M`, and the interval is centred at the returned
`minimum_detectable_effect`. -/
theorem mde_ci_width (P : TProvider) (power alpha sse df : ℚ) (tt : Bool) :
    ∀ r x y, toOpt (_mde P power alpha sse df tt) = some r →
      r.ciLower = some x → r.ciUpper = some y →
      y - x = 2 * tCrit P alpha df tt * sse ∧
      x + y = 2 * r.minimum_detectable_effect := by
  intro r x y hr hx hy
  obtain ⟨-, -, hca⟩ := mde_ok_inv P power alpha sse df tt r hr
  rcases hca with ⟨-, hre⟩ | ⟨h3, hre⟩
  · subst hre
    exact absurd hx (by simp)
  · subst hre
    have hx' : combinedM P power alpha df tt * sse *
        (1 - tCrit P alpha df tt / combinedM P power alpha df tt) = x :=
      Option.some.inj hx
    have hy' : combinedM P power alpha df tt * sse *
        (1 + tCrit P alpha df tt / combinedM P power alpha df tt) = y :=
      Option.some.inj hy
    subst hx'
    subst hy'
    constructor
    · have e : combinedM P power alpha df tt * sse *
          (1 + tCrit P alpha df tt / combinedM P power alpha df tt)
        - combinedM P power alpha df tt * sse *
          (1 - tCrit P alpha df tt / combinedM P power alpha df tt)
        = 2 * (combinedM P power alpha df tt / combinedM P power alpha df tt)
            * tCrit P alpha df tt * sse := by ring
      rw [e, div_self h3]
      ring
    · show combinedM P power alpha df tt * sse *
          (1 - tCrit P alpha df tt / combinedM P power alpha df tt)
        + combinedM P power alpha df tt * sse *
          (1 + tCrit P alpha df tt / combinedM P power alpha df tt)
        = 2 * (combinedM P power alpha df tt * sse)
      ring

/-- Witness for C10 at a concrete provider and input with `sse = 2`. -/
theorem mde_ci_width_witness :
    toOpt (_mde P0 (4/5) (1/20) 2 3 true)
      = some ⟨273/20, 95, some (38/5), some (197/10)⟩ ∧
    ((197:ℚ)/10 - 38/5 = 2 * tCrit P0 (1/20) 3 true * 2) ∧
    ((38:ℚ)/5 + 197/10 = 2 * MdeResult.minimum_detectable_effect
      ⟨273/20, 95, some (38/5), some (197/10)⟩) := by
  have heval : toOpt (_mde P0 (4/5) (1/20) 2 3 true)
      = some ⟨273/20, 95, some (38/5), some (197/10)⟩ := by
    rw [mde_ok P0 (4/5) (1/20) 2 3 true (by norm_num) (by norm_num)
      (by norm_num [combinedM, tCrit, tCrit2, P0, abs_of_pos])]
    norm_num [toOpt, combinedM, tCrit, tCrit2, P0, abs_of_pos, mdePct,
      pyRound2, pyRoundHE, pyInt]
  exact ⟨heval,
    (mde_ci_width P0 (4/5) (1/20) 2 3 true ⟨273/20, 95, some (38/5), some (197/10)⟩
      (38/5) (197/10) heval rfl rfl).1,
    (mde_ci_width P0 (4/5) (1/20) 2 3 true ⟨273/20, 95, some (38/5), some (197/10)⟩
      (38/5) (197/10) heval rfl rfl).2⟩

/-- Properties of the central t quantile that the claims about signs rely
on: `ppf` is strictly increasing in the probability and vanishes at `1/2`.
Both hold for the central t distribution at every `df > 0`. -/
def TLike (P : TProvider) : Prop :=
  (∀ d : ℚ, StrictMono fun q => P.ppf q d) ∧ (∀ d : ℚ, P.ppf (1/2) d = 0)

lemma crit_pos (P : TProvider) (df c : ℚ)
    (hmono : StrictMono fun q => P.ppf q df) (hz : P.ppf (1/2) df = 0)
    (hc : c < 1/2) : 0 < |P.ppf c df| := by
  have h2 : P.ppf c df < P.ppf (1/2) df := hmono hc
  rw [hz] at h2
  exact abs_pos.mpr (ne_of_lt h2)

lemma sub_crit_pos (P : TProvider) (df c power : ℚ)
    (hmono : StrictMono fun q => P.ppf q df) (hz : P.ppf (1/2) df = 0)
    (hcp : c < power) (hpw : power < 1/2) :
    0 < |P.ppf c df| - |P.ppf power df| := by
  have hppow : P.ppf power df < 0 := by
    have h2 : P.ppf power df < P.ppf (1/2) df := hmono hpw
    rwa [hz] at h2
  have hpc : P.ppf c df < P.ppf power df := hmono hcp
  rw [abs_of_neg hppow, abs_of_neg (hpc.trans hppow)]
  linarith

/-- C6 (amended): for every provider whose quantile is strictly increasing
with `ppf (1/2) df = 0` (true of the central t distribution) and every valid
input with `sse > 0`, `df >= 1`, `0 < power < 1`, the `_mde` result has
`minimum_detectable_effect = M * sse > 0` and a confidence interval with
`lower < upper`, provided `power > alpha/2` in the two-tailed case and
`alpha < 1/2` with `power > alpha` in the one-tailed case.  The original
claim asserted this for all `0 < alpha < 1` and all `sse >= 0`; the
counterexample shows both extra conditions are needed. -/
theorem mde_positive_ci (P : TProvider) (hP : TLike P)
    (power alpha sse df : ℚ) (tt : Bool)
    (hs : 0 < sse) (hd : 1 ≤ df) (hp0 : 0 < power) (hp1 : power < 1)
    (htt : tt = true → 0 < alpha ∧ alpha < 1 ∧ alpha / 2 < power)
    (hft : tt = false → 0 < alpha ∧ alpha < 1/2 ∧ alpha < power) :
    0 < combinedM P power alpha df tt * sse ∧
    _mde P power alpha sse df tt =
      Except.ok ⟨combinedM P power alpha df tt * sse, mdePct alpha,
        some (combinedM P power alpha df tt * sse *
          (1 - tCrit P alpha df tt / combinedM P power alpha df tt)),
        some (combinedM P power alpha df tt * sse *
          (1 + tCrit P alpha df tt / combinedM P power alpha df tt))⟩ ∧
    combinedM P power alpha df tt * sse *
        (1 - tCrit P alpha df tt / combinedM P power alpha df tt)
      < combinedM P power alpha df tt * sse *
        (1 + tCrit P alpha df tt / combinedM P power alpha df tt) := by
  have ht1 : 0 < tCrit P alpha df tt := by
    cases tt
    · obtain ⟨ha0, ha2, hap⟩ := hft rfl
      simpa [tCrit] using crit_pos P df alpha (hP.1 df) (hP.2 df) (by linarith)
    · obtain ⟨ha0, ha2, hap⟩ := htt rfl
      simpa [tCrit] using crit_pos P df (alpha/2) (hP.1 df) (hP.2 df) (by linarith)
  have hm : 0 < combinedM P power alpha df tt := by
    by_cases hpw : power ≥ 1/2
    · simp only [combinedM]
      rw [if_pos hpw]
      exact add_pos_of_pos_of_nonneg ht1 (abs_nonneg _)
    · push_neg at hpw
      simp only [combinedM]
      rw [if_neg (not_le.mpr hpw)]
      cases tt
      · obtain ⟨ha0, ha2, hap⟩ := hft rfl
        simpa [tCrit, tCrit2] using
          sub_crit_pos P df alpha power (hP.1 df) (hP.2 df) hap hpw
      · obtain ⟨ha0, ha2, hap⟩ := htt rfl
        simpa [tCrit, tCrit2] using
          sub_crit_pos P df (alpha/2) power (hP.1 df) (hP.2 df) hap hpw
  refine ⟨mul_pos hm hs,
    mde_ok P power alpha sse df tt (not_lt.mpr hs.le) (not_lt.mpr hd) (ne_of_gt hm), ?_⟩
  have hq : 0 < tCrit P alpha df tt / combinedM P power alpha df tt :=
    div_pos ht1 hm
  exact mul_lt_mul_of_pos_left (by linarith) (mul_pos hm hs)

/-- Concrete provider satisfying `TLike`: a strictly increasing quantile
vanishing at `1/2`. -/
def P1 : TProvider := ⟨fun q _ => q - 1/2, fun _ _ => 0, fun _ _ _ => 0⟩

lemma tlike_P1 : TLike P1 := by
  constructor
  · intro d a b hab
    show a - 1/2 < b - 1/2
    linarith
  · intro d
    show (1:ℚ)/2 - 1/2 = 0
    norm_num

/-- Witness for C6 at the conforming provider `P1`. -/
theorem mde_positive_ci_witness :
    0 < combinedM P1 (4/5) (1/10) 3 true * 1 ∧
    _mde P1 (4/5) (1/10) 1 3 true =
      Except.ok ⟨combinedM P1 (4/5) (1/10) 3 true * 1, mdePct (1/10),
        some (combinedM P1 (4/5) (1/10) 3 true * 1 *
          (1 - tCrit P1 (1/10) 3 true / combinedM P1 (4/5) (1/10) 3 true)),
        some (combinedM P1 (4/5) (1/10) 3 true * 1 *
          (1 + tCrit P1 (1/10) 3 true / combinedM P1 (4/5) (1/10) 3 true))⟩ ∧
    combinedM P1 (4/5) (1/10) 3 true * 1 *
        (1 - tCrit P1 (1/10) 3 true / combinedM P1 (4/5) (1/10) 3 true)
      < combinedM P1 (4/5) (1/10) 3 true * 1 *
        (1 + tCrit P1 (1/10) 3 true / combinedM P1 (4/5) (1/10) 3 true) :=
  mde_positive_ci P1 tlike_P1 (4/5) (1/10) 1 3 true (by norm_num) (by norm_num)
    (by norm_num) (by norm_num)
    (fun _ => ⟨by norm_num, by norm_num, by norm_num⟩)
    (fun h => Bool.noConfusion h)

/-- Counterexample for C6 as stated: with the conforming provider `P1`, at
`power = 1/4`, `alpha = 9/10` (two-tailed, a valid input with
`0 < alpha < 1`, `0 < power < 1`, `sse = 1 > 0`, `df = 2 >= 1`) the returned
`minimum_detectable_effect` is `-1/5 < 0`; and at `sse = 0` the interval
degenerates to `lower = upper = 0`, not `lower < upper`. -/
theorem mde_positive_ci_cex :
    TLike P1 ∧ (0:ℚ) < 1/4 ∧ (1:ℚ)/4 < 1 ∧ (0:ℚ) < 9/10 ∧ (9:ℚ)/10 < 1 ∧
    (0:ℚ) < 1 ∧ (1:ℚ) ≤ 2 ∧
    toOpt (_mde P1 (1/4) (9/10) 1 2 true)
      = some ⟨-1/5, 10, some (-1/4), some (-3/20)⟩ ∧
    toOpt (_mde P1 (1/4) (9/10) 0 2 true) = some ⟨0, 10, some 0, some 0⟩ := by
  have hm : combinedM P1 (1/4) (9/10) 2 true = -1/5 := by
    norm_num [combinedM, tCrit, tCrit2, P1, abs_of_pos]
  refine ⟨tlike_P1, by norm_num, by norm_num, by norm_num, by norm_num,
    by norm_num, by norm_num, ?_, ?_⟩
  · rw [mde_ok P1 (1/4) (9/10) 1 2 true (by norm_num) (by norm_num)
      (by rw [hm]; norm_num)]
    norm_num [toOpt, combinedM, tCrit, tCrit2, P1, abs_of_pos, mdePct,
      pyRound2, pyRoundHE, pyInt]
  · rw [mde_ok P1 (1/4) (9/10) 0 2 true (by norm_num) (by norm_num)
      (by rw [hm]; norm_num)]
    norm_num [toOpt, combinedM, tCrit, tCrit2, P1, abs_of_pos, mdePct,
      pyRound2, pyRoundHE, pyInt]

/-- Monotonicity facts about the external distribution functions that hold
for the noncentral t family: the CDF is non-decreasing in the evaluation
point, non-increasing in the noncentrality, bounded in `[0,1]`, and the
upper-tail quantile `isf` is non-increasing in the probability. -/
def NCTLike (P : TProvider) : Prop :=
  (∀ d lam : ℚ, Monotone fun x => P.nctCdf x d lam) ∧
  (∀ x d : ℚ, Antitone fun lam => P.nctCdf x d lam) ∧
  (∀ d : ℚ, Antitone fun a => P.isf a d) ∧
  (∀ x d lam : ℚ, 0 ≤ P.nctCdf x d lam ∧ P.nctCdf x d lam ≤ 1)

/-- C8 (amended): for every provider with the `NCTLike` monotonicity
properties, holding the other arguments fixed at valid values with
`sse > 0` and `df >= 1`, the one-tailed `_power` is non-decreasing in
`effect_size`, and `_power` (either tail mode) is non-decreasing in
`alpha`.  The original claim also asserted monotonicity in `effect_size`
for the two-tailed mode and monotonicity in `df`; both fail for conforming
providers (see the counterexample), so they are dropped. -/
theorem power_monotone (P : TProvider) (hP : NCTLike P)
    (es1 es2 a1 a2 es alpha sse df : ℚ) (tt : Bool)
    (hs : 0 < sse) (hd : 1 ≤ df) :
    (es1 ≤ es2 → ∀ y1 y2,
      _power P es1 alpha sse df false = Except.ok y1 →
      _power P es2 alpha sse df false = Except.ok y2 → y1 ≤ y2) ∧
    (a1 ≤ a2 → ∀ y1 y2,
      _power P es a1 sse df tt = Except.ok y1 →
      _power P es a2 sse df tt = Except.ok y2 → y1 ≤ y2) := by
  constructor
  · intro h12 y1 y2 hy1 hy2
    rw [power_ok P es1 alpha sse df false hs (not_lt.mpr hd)] at hy1
    rw [power_ok P es2 alpha sse df false hs (not_lt.mpr hd)] at hy2
    injection hy1 with e1
    injection hy2 with e2
    subst e1
    subst e2
    show 1 - P.nctCdf (P.isf alpha df) df (es1 / sse)
      ≤ 1 - P.nctCdf (P.isf alpha df) df (es2 / sse)
    have hl : es1 / sse ≤ es2 / sse := by gcongr
    have hmono := (hP.2.1 (P.isf alpha df) df) hl
    linarith
  · intro h12 y1 y2 hy1 hy2
    rw [power_ok P es a1 sse df tt hs (not_lt.mpr hd)] at hy1
    rw [power_ok P es a2 sse df tt hs (not_lt.mpr hd)] at hy2
    injection hy1 with e1
    injection hy2 with e2
    subst e1
    subst e2
    cases tt
    · show 1 - P.nctCdf (P.isf a1 df) df (es / sse)
        ≤ 1 - P.nctCdf (P.isf a2 df) df (es / sse)
      have hc : P.isf a2 df ≤ P.isf a1 df := (hP.2.2.1 df) h12
      have hmono := (hP.1 df (es / sse)) hc
      linarith
    · show 1 - P.nctCdf (P.isf (a1 / 2) df) df (es / sse)
          + P.nctCdf (-(P.isf (a1 / 2) df)) df (es / sse)
        ≤ 1 - P.nctCdf (P.isf (a2 / 2) df) df (es / sse)
          + P.nctCdf (-(P.isf (a2 / 2) df)) df (es / sse)
      have h2 : a1 / 2 ≤ a2 / 2 := by linarith
      have hc : P.isf (a2 / 2) df ≤ P.isf (a1 / 2) df := (hP.2.2.1 df) h2
      have m1 := (hP.1 df (es / sse)) hc
      have m2 := (hP.1 df (es / sse)) (neg_le_neg hc)
      linarith

/-- Concrete provider satisfying `NCTLike`: a clamped linear CDF and a
linear upper-tail quantile. -/
def P2 : TProvider :=
  ⟨fun q _ => q - 1/2, fun a d => d - a, fun x _ lam => max 0 (min 1 (x - lam))⟩

lemma nctlike_P2 : NCTLike P2 := by
  refine ⟨?_, ?_, ?_, ?_⟩
  · intro d lam a b hab
    show max 0 (min 1 (a - lam)) ≤ max 0 (min 1 (b - lam))
    exact max_le_max le_rfl (min_le_min le_rfl (by linarith))
  · intro x d a b hab
    show max 0 (min 1 (x - b)) ≤ max 0 (min 1 (x - a))
    exact max_le_max le_rfl (min_le_min le_rfl (by linarith))
  · intro d a b hab
    show d - b ≤ d - a
    linarith
  · intro x d lam
    exact ⟨le_max_left 0 _, max_le (by norm_num) (min_le_left 1 _)⟩

/-- Witness for C8 at the conforming provider `P2`, one-tailed, effect
sizes `0 ≤ 1`: the power moves from `1/2` up to `1`. -/
theorem power_monotone_witness :
    _power P2 0 (1/2) 1 1 false = Except.ok (1/2) ∧
    _power P2 1 (1/2) 1 1 false = Except.ok 1 ∧
    ((1:ℚ)/2 ≤ 1) := by
  have h1 : _power P2 0 (1/2) 1 1 false = Except.ok (1/2) := by
    rw [power_ok P2 0 (1/2) 1 1 false (by norm_num) (by norm_num)]
    norm_num [powerFormula, P2, min_def, max_def]
  have h2 : _power P2 1 (1/2) 1 1 false = Except.ok 1 := by
    rw [power_ok P2 1 (1/2) 1 1 false (by norm_num) (by norm_num)]
    norm_num [powerFormula, P2, min_def, max_def]
  exact ⟨h1, h2,
    (power_monotone P2 nctlike_P2 0 1 0 0 0 (1/2) 1 1 false (by norm_num)
      (by norm_num)).1 (by norm_num) (1/2) 1 h1 h2⟩

/-- Counterexample for C8 as stated: with the conforming provider `P2`
(two-tailed, `alpha = 1/2`, `sse = 1`), raising the effect size from `-10`
to `0` drops the power from `1` to `1/4`, and raising `df` from `1` to `2`
drops it from `1/4` to `0`; so two-tailed monotonicity in `effect_size` and
monotonicity in `df` are not consequences of the code plus the standard
monotonicity properties of the distribution functions. -/
theorem power_monotone_cex :
    NCTLike P2 ∧ ((-10:ℚ) ≤ 0) ∧ ((1:ℚ) ≤ 2) ∧
    _power P2 (-10) (1/2) 1 1 true = Except.ok 1 ∧
    _power P2 0 (1/2) 1 1 true = Except.ok (1/4) ∧
    _power P2 0 (1/2) 1 2 true = Except.ok 0 ∧
    ¬ ((1:ℚ) ≤ 1/4) ∧ ¬ ((1:ℚ)/4 ≤ 0) := by
  refine ⟨nctlike_P2, by norm_num, by norm_num, ?_, ?_, ?_, by norm_num, by norm_num⟩
  · rw [power_ok P2 (-10) (1/2) 1 1 true (by norm_num) (by norm_num)]
    norm_num [powerFormula, P2, min_def, max_def]
  · rw [power_ok P2 0 (1/2) 1 1 true (by norm_num) (by norm_num)]
    norm_num [powerFormula, P2, min_def, max_def]
  · rw [power_ok P2 0 (1/2) 1 2 true (by norm_num) (by norm_num)]
    norm_num [powerFormula, P2, min_def, max_def]

/-- Design and solver parameters of `sample_size_bcra3f2`
(`pyPowerUp/sample_size.py`, lines 9-24). -/
structure B3f2 where
  rho2 : ℚ
  n : ℚ
  J : ℚ
  effect_size : ℚ
  power : ℚ
  alpha : ℚ
  two_tailed : Bool
  tol : ℚ
  p : ℚ
  g2 : ℚ
  r21 : ℚ
  r22 : ℚ

/-- State after running the solver loop: the final guess, the last computed
`df`, and the number of iterations that passed the `df` feasibility check. -/
structure IterResult where
  guess : ℚ
  df : ℚ
  iters : ℕ
deriving DecidableEq

/-- Degrees-of-freedom formula of the bcra3f2 design (line 65 of
`sample_size.py`): `df = K0 * (J - 2) - g2`, recomputed from the current
guess on every iteration. -/
def bcra3f2Df (c : B3f2) (K0 : ℚ) : ℚ := K0 * (c.J - 2) - c.g2

/-- Standardised variance expression of the bcra3f2 design (lines 74-75 of
`sample_size.py`); it does not depend on the current guess. -/
def bcra3f2Var (c : B3f2) : ℚ :=
  c.rho2 * (1 - c.r22) / (c.p * (1 - c.p) * c.J)
    + (1 - c.rho2) * (1 - c.r21) / (c.p * (1 - c.p) * c.J * c.n)

/-- Proposal for the next guess: `next = (M / effect_size)^2 * variance`
with `M` from the combination rule at the `df` of the current guess
(line 73 of `sample_size.py`). -/
def bcra3f2Next (P : TProvider) (c : B3f2) (K0 : ℚ) : ℚ :=
  (combinedM P c.power c.alpha (bcra3f2Df c K0) c.two_tailed / c.effect_size)^2
    * bcra3f2Var c

/-- Embedding of the iteration loop of `sample_size_bcra3f2`
(`pyPowerUp/sample_size.py`, lines 63-79): the remaining budget of the
Python `for i in range(100)` loop is explicit fuel, the last computed `df`
is threaded through (Python initialises `df = 0` before the loop), and a
counter of the iterations that passed the feasibility check is added for
the termination claims.  In exact rational arithmetic `np.isinf(df)` is
identically false, so the Python break guard `df < 0 or np.isinf(df)`
is modelled as `df < 0`; divisions are exact rational divisions (the
claims concern inputs whose divisors `effect_size`, `p * (1 - p) * J` and
`n` are nonzero, where Python would not raise). -/
def bcra3f2Loop (P : TProvider) (c : B3f2) : ℕ → ℚ → ℚ → IterResult
  | 0, K0, dflast => ⟨K0, dflast, 0⟩
  | fuel+1, K0, _ =>
      let df := K0 * (c.J - 2) - c.g2
      if df < 0 then ⟨K0, df, 0⟩
      else
        let T1 := if c.two_tailed then |P.ppf (c.alpha / 2) df| else |P.ppf c.alpha df|
        let T2 := |P.ppf c.power df|
        let M := if c.power ≥ 1/2 then T1 + T2 else T1 - T2
        let K1 := (M / c.effect_size)^2 *
          (c.rho2 * (1 - c.r22) / (c.p * (1 - c.p) * c.J)
            + (1 - c.rho2) * (1 - c.r21) / (c.p * (1 - c.p) * c.J * c.n))
        if |K1 - K0| < c.tol then ⟨K0, df, 1⟩
        else
          let r := bcra3f2Loop P c fuel ((K1 + K0) / 2) df
          ⟨r.guess, r.df, r.iters + 1⟩

/-- Embedding of `sample_size_bcra3f2` (lines 9-83 of `sample_size.py`):
run the loop for at most 100 rounds from the initial guess `K0` and return
`ceil` of the final guess when the last computed `df` is positive, the
undefined marker otherwise.  The `print_pretty` branch only prints and is
dropped. -/
def sample_size_bcra3f2 (P : TProvider) (c : B3f2) (K0 : ℚ) : Option ℤ :=
  let r := bcra3f2Loop P c 100 K0 0
  if 0 < r.df then some ⌈r.guess⌉ else none

/-- Number of iterations of the solver that passed the feasibility check. -/
def bcra3f2Iters (P : TProvider) (c : B3f2) (K0 : ℚ) : ℕ :=
  (bcra3f2Loop P c 100 K0 0).iters

lemma bcra3f2Loop_succ (P : TProvider) (c : B3f2) (fuel : ℕ) (K0 dflast : ℚ) :
    bcra3f2Loop P c (fuel+1) K0 dflast =
      if bcra3f2Df c K0 < 0 then ⟨K0, bcra3f2Df c K0, 0⟩
      else if |bcra3f2Next P c K0 - K0| < c.tol then ⟨K0, bcra3f2Df c K0, 1⟩
      else
        ⟨(bcra3f2Loop P c fuel ((bcra3f2Next P c K0 + K0) / 2) (bcra3f2Df c K0)).guess,
         (bcra3f2Loop P c fuel ((bcra3f2Next P c K0 + K0) / 2) (bcra3f2Df c K0)).df,
         (bcra3f2Loop P c fuel ((bcra3f2Next P c K0 + K0) / 2) (bcra3f2Df c K0)).iters + 1⟩ :=
  rfl

lemma bcra3f2Loop_iters_le (P : TProvider) (c : B3f2) :
    ∀ fuel (K0 dflast : ℚ), (bcra3f2Loop P c fuel K0 dflast).iters ≤ fuel := by
  intro fuel
  induction fuel with
  | zero =>
      intro K0 dflast
      exact Nat.le_refl 0
  | succ m ih =>
      intro K0 dflast
      rw [bcra3f2Loop_succ]
      split_ifs with h1 h2
      · exact Nat.zero_le _
      · exact Nat.succ_le_succ (Nat.zero_le m)
      · exact Nat.succ_le_succ (ih _ _)

/-- C3: every iteration of the bcra3f2 sample-size solver whose computed
`df` is feasible (`0 ≤ df`) proposes
`next = (M / effect_size)^2 * design_variance` with `M` from the combination
rule of section 4.1 at the target power, stops at once accepting the current
guess when `|next - guess| < tol`, otherwise replaces the guess by the
damped average `(next + guess) / 2` and repeats; the solver performs at most
100 such rounds. -/
theorem bcra3f2_iteration (P : TProvider) (c : B3f2) (fuel : ℕ)
    (K0 dflast : ℚ) (hdf : 0 ≤ bcra3f2Df c K0) :
    (|bcra3f2Next P c K0 - K0| < c.tol →
      bcra3f2Loop P c (fuel+1) K0 dflast = ⟨K0, bcra3f2Df c K0, 1⟩) ∧
    (¬ |bcra3f2Next P c K0 - K0| < c.tol →
      bcra3f2Loop P c (fuel+1) K0 dflast =
        ⟨(bcra3f2Loop P c fuel ((bcra3f2Next P c K0 + K0) / 2) (bcra3f2Df c K0)).guess,
         (bcra3f2Loop P c fuel ((bcra3f2Next P c K0 + K0) / 2) (bcra3f2Df c K0)).df,
         (bcra3f2Loop P c fuel ((bcra3f2Next P c K0 + K0) / 2) (bcra3f2Df c K0)).iters + 1⟩) ∧
    bcra3f2Iters P c K0 ≤ 100 := by
  refine ⟨?_, ?_, bcra3f2Loop_iters_le P c 100 K0 0⟩
  · intro h
    rw [bcra3f2Loop_succ, if_neg (not_lt.mpr hdf), if_pos h]
  · intro h
    rw [bcra3f2Loop_succ, if_neg (not_lt.mpr hdf), if_neg h]

/-- Parameters used to instantiate the solver claims: `J = 2` and `g2 = 0`,
so `df = 0` at every guess. -/
def c0 : B3f2 := ⟨1/2, 4, 2, 1/4, 4/5, 1/10, true, 1/10, 1/2, 0, 0, 0⟩

/-- Witness for C3 at a concrete provider and parameters. -/
theorem bcra3f2_iteration_witness :
    0 ≤ bcra3f2Df c0 10 ∧ bcra3f2Iters P0 c0 10 ≤ 100 :=
  ⟨by norm_num [bcra3f2Df, c0],
   (bcra3f2_iteration P0 c0 0 10 0 (by norm_num [bcra3f2Df, c0])).2.2⟩

/-- C4 (amended): the bcra3f2 solver leaves an iteration immediately,
without evaluating the proposal, exactly when the computed `df` is negative
(the Python guard is `df < 0 or np.isinf(df)`; the `isinf` disjunct cannot
fire in exact arithmetic), and then returns the undefined marker.  After
the loop, by convergence or budget exhaustion, it returns `ceil(guess)` if
the last computed `df` is positive and the undefined marker otherwise; it
never raises for infeasibility, being a total function.  The original
claim asserted immediate termination already at `df <= 0`; at `df = 0` the
iteration in fact proceeds (see the counterexample). -/
theorem bcra3f2_termination (P : TProvider) (c : B3f2) (K0 : ℚ) :
    (bcra3f2Df c K0 < 0 →
      bcra3f2Loop P c 100 K0 0 = ⟨K0, bcra3f2Df c K0, 0⟩ ∧
      sample_size_bcra3f2 P c K0 = none) ∧
    (0 < (bcra3f2Loop P c 100 K0 0).df →
      sample_size_bcra3f2 P c K0 = some ⌈(bcra3f2Loop P c 100 K0 0).guess⌉) ∧
    ((bcra3f2Loop P c 100 K0 0).df ≤ 0 →
      sample_size_bcra3f2 P c K0 = none) := by
  have hdef : sample_size_bcra3f2 P c K0 =
      if 0 < (bcra3f2Loop P c 100 K0 0).df
      then some ⌈(bcra3f2Loop P c 100 K0 0).guess⌉ else none := rfl
  refine ⟨?_, ?_, ?_⟩
  · intro h
    have hl : bcra3f2Loop P c 100 K0 0 = ⟨K0, bcra3f2Df c K0, 0⟩ := by
      rw [show (100:ℕ) = 99+1 from rfl, bcra3f2Loop_succ, if_pos h]
    refine ⟨hl, ?_⟩
    rw [hdef, hl]
    exact if_neg (not_lt.mpr h.le)
  · intro h
    rw [hdef, if_pos h]
  · intro h
    rw [hdef, if_neg (not_lt.mpr h)]

/-- Parameters with `J = 1`, so the first computed `df` is negative. -/
def c1 : B3f2 := { c0 with J := 1 }

/-- Witness for C4: a first-iteration infeasible `df` gives the undefined
marker at once. -/
theorem bcra3f2_termination_witness :
    bcra3f2Df c1 10 < 0 ∧ sample_size_bcra3f2 P0 c1 10 = none :=
  ⟨by norm_num [bcra3f2Df, c1, c0],
   ((bcra3f2_termination P0 c1 10).1 (by norm_num [bcra3f2Df, c1, c0])).2⟩

/-- Parameters with `J = 2`, `g2 = 0` (so `df = 0` at every guess) and a
large tolerance, so the first proposal already passes the convergence
check. -/
def c2 : B3f2 := ⟨1/2, 4, 2, 1/4, 4/5, 1/10, true, 10, 1/2, 0, 0, 0⟩

/-- Counterexample for C4 as stated: at these parameters the first computed
`df` is `0`, yet the solver does not terminate at the feasibility check: it
still evaluates the quantiles, the proposal `next = 289/20` and the
convergence check of that same iteration (the iteration counter is `1`, not
`0`).  The Python guard is `df < 0 or np.isinf(df)`, not `df <= 0`. -/
theorem bcra3f2_termination_cex :
    bcra3f2Df c2 10 = 0 ∧
    bcra3f2Loop P0 c2 100 10 0 = ⟨10, 0, 1⟩ ∧
    (bcra3f2Loop P0 c2 100 10 0).iters ≠ 0 ∧
    sample_size_bcra3f2 P0 c2 10 = none := by
  have hdf : bcra3f2Df c2 10 = 0 := by norm_num [bcra3f2Df, c2]
  have hnext : bcra3f2Next P0 c2 10 = 289/20 := by
    norm_num [bcra3f2Next, combinedM, tCrit, tCrit2, bcra3f2Var, bcra3f2Df,
      c2, P0, abs_of_pos]
  have hl : bcra3f2Loop P0 c2 100 10 0 = ⟨10, 0, 1⟩ := by
    rw [show (100:ℕ) = 99+1 from rfl, bcra3f2Loop_succ,
      if_neg (by rw [hdf]; norm_num),
      if_pos (by rw [hnext]; norm_num [c2, abs_of_pos])]
    rw [hdf]
  have hres : sample_size_bcra3f2 P0 c2 10 = none := by
    have hdef : sample_size_bcra3f2 P0 c2 10 =
        if 0 < (bcra3f2Loop P0 c2 100 10 0).df
        then some ⌈(bcra3f2Loop P0 c2 100 10 0).guess⌉ else none := rfl
    rw [hdef, hl]
    exact if_neg (lt_irrefl 0)
  exact ⟨hdf, hl, by rw [hl]; exact one_ne_zero, hres⟩

end PyPowerUp
